import Mathlib

/-!
A shallow embedding of the code-analyzer repository core: the commit-log
scanner and the metrics aggregator (git_analyzer.py), the COCOMO II cost
estimator (main.py, CodeAnalyzer.calculate_cocomo2), the integrated-metrics
calculator and the analysis orchestrator
(src/services/integrated_analysis_service.py), together with theorems that
settle the specification claims.

Modelling conventions: Python float values are modelled as rationals; the
float power operation x ** y is an external primitive of the host language and
is passed in as an explicit function argument. Timestamps are modelled as
integer epoch seconds (git log prints dates at one-second resolution). Text is
modelled as lists of characters, and the helper functions below mirror, one
for one, the Python string operations used by the source. Raised exceptions
are modelled as none or as an error value of Except.
-/

namespace CA

/-- True when the first list is an initial segment of the second. -/
def startsWithSeq : List Char → List Char → Bool
  | [], _ => true
  | _ :: _, [] => false
  | p :: ps, c :: cs => p == c && startsWithSeq ps cs

/-- True when pat occurs as a contiguous run inside the list: the Python
membership test pat in s. -/
def containsSeq (pat : List Char) : List Char → Bool
  | [] => startsWithSeq pat []
  | c :: cs => startsWithSeq pat (c :: cs) || containsSeq pat cs

/-- Characters before the first occurrence of pat, the whole list when pat is
absent: the head of the Python split on a separator string. -/
def takeUntilSeq (pat : List Char) : List Char → List Char
  | [] => []
  | c :: cs => if startsWithSeq pat (c :: cs) then [] else c :: takeUntilSeq pat cs

/-- Split at every character satisfying p, keeping empty chunks, exactly as
the Python split on a one-character separator does. -/
def splitOnPred (p : Char → Bool) : List Char → List (List Char)
  | [] => [[]]
  | c :: cs =>
    let r := splitOnPred p cs
    if p c then [] :: r
    else
      match r with
      | [] => [[c]]
      | h :: t => (c :: h) :: t

/-- Last element of a split, the Python index -1; a split is never empty. -/
def lastChunk (l : List (List Char)) : List Char := l.getLastD []

/-- Python strip with no argument: remove leading and trailing whitespace. -/
def stripWs (s : List Char) : List Char :=
  ((s.dropWhile Char.isWhitespace).reverse.dropWhile Char.isWhitespace).reverse

/-- Python split with no argument: split on whitespace, dropping empty chunks. -/
def splitWs (s : List Char) : List (List Char) :=
  (splitOnPred Char.isWhitespace s).filter (fun t => !t.isEmpty)

/-- Value of a decimal digit character. -/
def digitVal (c : Char) : ℕ := c.toNat - 48

/-- Decimal value of a digit list. -/
def digitsVal (cs : List Char) : ℕ := cs.foldl (fun a c => a * 10 + digitVal c) 0

/-- Decimal reading of a character list: some value only when the list is a
nonempty run of digits. -/
def digitsToNatOpt (cs : List Char) : Option ℕ :=
  if !cs.isEmpty && cs.all Char.isDigit then some (digitsVal cs) else none

/-- The Python int constructor applied to a string: optional sign, decimal
digits, surrounding whitespace tolerated; any other shape raises ValueError,
modelled as none. Digit-group underscores, which never occur in git shortstat
output, are not modelled. -/
def pyInt (s : List Char) : Option ℤ :=
  match stripWs s with
  | '-' :: rest => (digitsToNatOpt rest).map (fun n => -(n : ℤ))
  | '+' :: rest => (digitsToNatOpt rest).map (fun n => (n : ℤ))
  | t => (digitsToNatOpt t).map (fun n => (n : ℤ))

/-- Python replace of the first space by the letter T, as in the date
preprocessing of the scanner. -/
def replaceFirstSpaceT : List Char → List Char
  | [] => []
  | c :: cs => if c = ' ' then 'T' :: cs else c :: replaceFirstSpaceT cs

/-- Characters strictly after the first space; empty when there is none. -/
def afterFirstSpace : List Char → List Char
  | [] => []
  | c :: cs => if c = ' ' then cs else afterFirstSpace cs

/-- Head of the Python rsplit on a space with at most one split: everything
before the last space, the whole list when there is no space. -/
def beforeLastSpace (s : List Char) : List Char :=
  if ' ' ∈ s then (afterFirstSpace s.reverse).reverse else s

/-- Date preprocessing in GitAnalyzer.get_commits: replace the first space by
T, then drop the trailing UTC-offset field after the last space. -/
def preprocessDate (s : List Char) : List Char := beforeLastSpace (replaceFirstSpaceT s)

/-- CommitInfo from models.py: one parsed commit record. -/
structure CommitInfo where
  hash : String
  author : String
  date : ℤ
  message : String
  files_changed : ℤ
  insertions : ℤ
  deletions : ℤ
  total_changes : ℤ
deriving DecidableEq

/-- Stats-line parsing inside GitAnalyzer.get_commits: the files clause is
read from the first whitespace token, the insertions and deletions clauses
positionally from the text before their keyword; a clause whose keyword is
absent leaves its counter at zero. A failing int conversion raises in Python,
modelled as a none result. -/
def parseStats (stats : List Char) : Option (ℤ × ℤ × ℤ) :=
  (if containsSeq "file".toList stats then
      match splitWs stats with
      | [] => none
      | w :: _ => pyInt w
    else some 0).bind fun files =>
  (if containsSeq "insertion".toList stats then
      pyInt (stripWs (lastChunk (splitOnPred (fun c => c == ',')
        (takeUntilSeq "insertion".toList stats))))
    else some 0).bind fun ins =>
  (if containsSeq "deletion".toList stats then
      pyInt (stripWs (lastChunk (splitOnPred (fun c => c == ',')
        (takeUntilSeq "deletion".toList stats))))
    else some 0).bind fun del =>
  some (files, ins, del)

/-- GitAnalyzer.get_commits over the list of log lines. The external
datetime.fromisoformat is the argument fromiso; a failure there, or an int
conversion failure on a stats line, is the ValueError raise of the Python
code, modelled as a none overall result. A line containing the separator but
with fewer than four fields is skipped; a line without the separator is
skipped; a stats line containing the keyword changed closes the pending
record and is consumed. -/
def getCommitsLines (fromiso : String → Option ℤ) : List (List Char) → Option (List CommitInfo)
  | [] => some []
  | line :: rest =>
    if '|' ∈ line then
      let parts := splitOnPred (fun c => c == '|') line
      if 4 ≤ parts.length then
        match fromiso (String.mk (preprocessDate (parts.getD 2 []))) with
        | none => none
        | some date =>
          let mk : ℤ → ℤ → ℤ → CommitInfo := fun f ins del =>
            { hash := String.mk (parts.getD 0 [])
              author := String.mk (parts.getD 1 [])
              date := date
              message := String.mk (parts.getD 3 [])
              files_changed := f
              insertions := ins
              deletions := del
              total_changes := ins + del }
          match rest with
          | [] => some [mk 0 0 0]
          | next :: rest2 =>
            if containsSeq "changed".toList next then
              match parseStats next with
              | none => none
              | some (f, ins, del) =>
                (getCommitsLines fromiso rest2).map (fun cs => mk f ins del :: cs)
            else
              (getCommitsLines fromiso (next :: rest2)).map (fun cs => mk 0 0 0 :: cs)
      else getCommitsLines fromiso rest
    else getCommitsLines fromiso rest

/-- GitAnalyzer.get_commits from the raw log text: the text is split on
newlines, keeping empty lines, then scanned. -/
def getCommitsText (fromiso : String → Option ℤ) (text : String) : Option (List CommitInfo) :=
  getCommitsLines fromiso (splitOnPred (fun c => c == '\n') text.toList)

/-- GitMetrics from models.py: the repository summary. The author map of the
Python defaultdict is modelled extensionally as the commit count per author
name; timestamps are epoch seconds. -/
structure GitMetrics where
  total_commits : ℤ
  total_authors : ℤ
  authors_commits : String → ℕ
  total_insertions : ℤ
  total_deletions : ℤ
  avg_changes_per_commit : ℚ
  avg_files_per_commit : ℚ
  commits_per_day : ℚ
  first_commit_date : ℤ
  last_commit_date : ℤ
  repository_age_days : ℤ

/-- The Python min over commits keyed by date: the first element whose date is
minimal, found by a left fold that replaces the best only on a strictly
smaller date. -/
def minByDate (c : CommitInfo) (cs : List CommitInfo) : CommitInfo :=
  cs.foldl (fun acc x => if x.date < acc.date then x else acc) c

/-- The Python max over commits keyed by date: the first element whose date is
maximal. -/
def maxByDate (c : CommitInfo) (cs : List CommitInfo) : CommitInfo :=
  cs.foldl (fun acc x => if acc.date < x.date then x else acc) c

/-- GitAnalyzer.calculate_metrics: raises ValueError on an empty commit list,
modelled as the error case; otherwise reduces the records to the repository
summary. The day span uses floor division by 86400 seconds, as the days field
of a Python timedelta does, and a zero span is replaced by one. -/
def calculate_metrics : List CommitInfo → Except String GitMetrics
  | [] => .error "Nenhum commit encontrado"
  | c :: cs =>
    let commits := c :: cs
    let total_commits : ℤ := commits.length
    let total_insertions := (commits.map (fun x => x.insertions)).sum
    let total_deletions := (commits.map (fun x => x.deletions)).sum
    let total_files := (commits.map (fun x => x.files_changed)).sum
    let total_changes := (commits.map (fun x => x.total_changes)).sum
    let first_commit := minByDate c cs
    let last_commit := maxByDate c cs
    let span := Int.fdiv (last_commit.date - first_commit.date) 86400
    let repo_age_days := if span = 0 then 1 else span
    .ok
      { total_commits := total_commits
        total_authors := ((commits.map (fun x => x.author)).dedup).length
        authors_commits := fun a => (commits.filter (fun x => x.author = a)).length
        total_insertions := total_insertions
        total_deletions := total_deletions
        avg_changes_per_commit :=
          if 0 < total_commits then (total_changes : ℚ) / (total_commits : ℚ) else 0
        avg_files_per_commit :=
          if 0 < total_commits then (total_files : ℚ) / (total_commits : ℚ) else 0
        commits_per_day :=
          if 0 < repo_age_days then (total_commits : ℚ) / (repo_age_days : ℚ) else 0
        first_commit_date := first_commit.date
        last_commit_date := last_commit.date
        repository_age_days := repo_age_days }

/-- CocomoResults from models.py and main.py. -/
structure CocomoResults where
  kloc : ℚ
  effort_person_months : ℚ
  time_months : ℚ
  people_required : ℚ
  maintenance_people : ℚ
  expansion_people : ℚ
  productivity : ℚ
  cost_estimate_brl : ℚ
  complexity_level : String
deriving DecidableEq

/-- One row of the COCOMO II coefficient table of main.py. -/
structure CocomoCoef where
  a : ℚ
  b : ℚ
  c : ℚ
  d : ℚ
deriving DecidableEq

/-- The organic row of the coefficient table. -/
def organicCoef : CocomoCoef := ⟨24/10, 105/100, 25/10, 38/100⟩

/-- The semi-detached row of the coefficient table. -/
def semiDetachedCoef : CocomoCoef := ⟨3, 112/100, 25/10, 35/100⟩

/-- The embedded row of the coefficient table. -/
def embeddedCoef : CocomoCoef := ⟨36/10, 120/100, 25/10, 32/100⟩

/-- The KLOC-threshold tier selection inside CodeAnalyzer.calculate_cocomo2:
at most 50 organic, at most 300 semi-detached, above that embedded, paired
with the complexity label. -/
def cocomoModeSelect (kloc : ℚ) : CocomoCoef × String :=
  if kloc ≤ 50 then (organicCoef, "Baixa")
  else if kloc ≤ 300 then (semiDetachedCoef, "Média")
  else (embeddedCoef, "Alta")

/-- CodeAnalyzer.calculate_cocomo2 from main.py. The float power operation is
the argument fpow. The mode argument of the Python signature is rebound by the
KLOC tier selection before its only read, so the incoming value, of whatever
runtime type, is dead; it is kept here to mirror the signature. The function
is total: every branch returns a result. -/
def calculate_cocomo2 {α : Type} (fpow : ℚ → ℚ → ℚ) (code_lines : ℚ) (modeArg : α) :
    CocomoResults :=
  let _ := modeArg
  let kloc := code_lines / 1000
  let sel := cocomoModeSelect kloc
  let coef := sel.1
  let complexity := sel.2
  let effort := coef.a * fpow kloc coef.b
  let time := coef.c * fpow effort coef.d
  let people := if 0 < time then effort / time else 0
  let maintenance := people * (18/100)
  let expansion := people * (30/100)
  let productivity := if 0 < effort then code_lines / effort else 0
  let cost_brl := effort * 15000
  { kloc := kloc
    effort_person_months := effort
    time_months := time
    people_required := people
    maintenance_people := maintenance
    expansion_people := expansion
    productivity := productivity
    cost_estimate_brl := cost_brl
    complexity_level := complexity }

/-- IntegratedMetrics from models.py. -/
structure IntegratedMetrics where
  cocomo_kloc : ℚ
  cocomo_effort : ℚ
  cocomo_time_months : ℚ
  cocomo_people : ℚ
  cocomo_cost_brl : ℚ
  total_commits : ℤ
  avg_changes_per_commit : ℚ
  commits_per_month : ℚ
  lines_per_commit : ℚ
  commits_needed_to_rebuild : ℚ
  actual_velocity : ℚ
  estimated_velocity : ℚ
  velocity_ratio : ℚ
  commit_efficiency : ℚ
  change_percentage_per_commit : ℚ
  developer_productivity_score : ℚ

/-- Modelled from the spec: the constant WORKING_DAYS_PER_MONTH, imported by
the service layer from analysis_config but absent from the snapshot of that
module; the spec gives the default 22, and the legacy copy in git_analyzer.py
hard-codes 22 at the same place. -/
def WORKING_DAYS_PER_MONTH : ℚ := 22

/-- The integrated-metrics calculator, identical in
IntegratedAnalysisService._calculate_integrated_metrics and the legacy
IntegratedAnalyzer._calculate_integrated_metrics: every ratio is guarded on a
strictly positive denominator, with zero otherwise. -/
def calculate_integrated_metrics (cocomo : CocomoResults) (git : GitMetrics)
    (total_lines : ℤ) : IntegratedMetrics :=
  let lines_per_commit :=
    if 0 < git.total_commits then (total_lines : ℚ) / (git.total_commits : ℚ) else 0
  let commits_needed :=
    if 0 < lines_per_commit then cocomo.kloc * 1000 / lines_per_commit else 0
  let actual_velocity :=
    if 0 < git.repository_age_days then (total_lines : ℚ) / (git.repository_age_days : ℚ) else 0
  let estimated_velocity :=
    if 0 < cocomo.productivity then cocomo.productivity / WORKING_DAYS_PER_MONTH else 0
  let velocity_ratio :=
    if 0 < estimated_velocity then actual_velocity / estimated_velocity else 0
  let total_changes := git.total_insertions + git.total_deletions
  let commit_efficiency :=
    if 0 < total_changes then (total_lines : ℚ) / (total_changes : ℚ) * 100 else 0
  let change_percentage_per_commit :=
    if 0 < total_lines then git.avg_changes_per_commit / (total_lines : ℚ) * 100 else 0
  let base_score : ℚ := 50
  let velocity_score := min (velocity_ratio * 25) 25
  let efficiency_score := min (commit_efficiency / 100 * 15) 15
  let complexity_bonus : ℚ :=
    if cocomo.complexity_level = "Alta" then 10
    else if cocomo.complexity_level = "Média" then 5 else 0
  let developer_productivity_score :=
    base_score + velocity_score + efficiency_score + complexity_bonus
  let commits_per_month :=
    if 0 < git.repository_age_days then
      (git.total_commits : ℚ) / ((git.repository_age_days : ℚ) / 30)
    else 0
  { cocomo_kloc := cocomo.kloc
    cocomo_effort := cocomo.effort_person_months
    cocomo_time_months := cocomo.time_months
    cocomo_people := cocomo.people_required
    cocomo_cost_brl := cocomo.cost_estimate_brl
    total_commits := git.total_commits
    avg_changes_per_commit := git.avg_changes_per_commit
    commits_per_month := commits_per_month
    lines_per_commit := lines_per_commit
    commits_needed_to_rebuild := commits_needed
    actual_velocity := actual_velocity
    estimated_velocity := estimated_velocity
    velocity_ratio := velocity_ratio
    commit_efficiency := commit_efficiency
    change_percentage_per_commit := change_percentage_per_commit
    developer_productivity_score := developer_productivity_score }

/-- Division that faults on a zero denominator: the checked embedding used to
state that the calculator never divides by zero. -/
def divOpt (a b : ℚ) : Option ℚ := if b = 0 then none else some (a / b)

/-- The integrated-metrics calculator with every division routed through
divOpt, so that an unguarded zero denominator would surface as none. Guards
are placed exactly where the source guards its conditional expressions. -/
def calculate_integrated_metrics_checked (cocomo : CocomoResults) (git : GitMetrics)
    (total_lines : ℤ) : Option IntegratedMetrics :=
  (if 0 < git.total_commits then divOpt (total_lines : ℚ) (git.total_commits : ℚ)
   else pure 0).bind fun lines_per_commit =>
  (if 0 < lines_per_commit then divOpt (cocomo.kloc * 1000) lines_per_commit
   else pure 0).bind fun commits_needed =>
  (if 0 < git.repository_age_days then divOpt (total_lines : ℚ) (git.repository_age_days : ℚ)
   else pure 0).bind fun actual_velocity =>
  (if 0 < cocomo.productivity then divOpt cocomo.productivity WORKING_DAYS_PER_MONTH
   else pure 0).bind fun estimated_velocity =>
  (if 0 < estimated_velocity then divOpt actual_velocity estimated_velocity
   else pure 0).bind fun velocity_ratio =>
  (if 0 < git.total_insertions + git.total_deletions then
      (divOpt (total_lines : ℚ) ((git.total_insertions + git.total_deletions : ℤ) : ℚ)).map
        (fun q => q * 100)
   else pure 0).bind fun commit_efficiency =>
  (if 0 < total_lines then
      (divOpt git.avg_changes_per_commit (total_lines : ℚ)).map (fun q => q * 100)
   else pure 0).bind fun change_percentage_per_commit =>
  (divOpt commit_efficiency 100).bind fun efficiency_scaled =>
  (if 0 < git.repository_age_days then
      divOpt (git.total_commits : ℚ) ((git.repository_age_days : ℚ) / 30)
   else pure 0).bind fun commits_per_month =>
  let base_score : ℚ := 50
  let velocity_score := min (velocity_ratio * 25) 25
  let efficiency_score := min (efficiency_scaled * 15) 15
  let complexity_bonus : ℚ :=
    if cocomo.complexity_level = "Alta" then 10
    else if cocomo.complexity_level = "Média" then 5 else 0
  let developer_productivity_score :=
    base_score + velocity_score + efficiency_score + complexity_bonus
  pure
    { cocomo_kloc := cocomo.kloc
      cocomo_effort := cocomo.effort_person_months
      cocomo_time_months := cocomo.time_months
      cocomo_people := cocomo.people_required
      cocomo_cost_brl := cocomo.cost_estimate_brl
      total_commits := git.total_commits
      avg_changes_per_commit := git.avg_changes_per_commit
      commits_per_month := commits_per_month
      lines_per_commit := lines_per_commit
      commits_needed_to_rebuild := commits_needed
      actual_velocity := actual_velocity
      estimated_velocity := estimated_velocity
      velocity_ratio := velocity_ratio
      commit_efficiency := commit_efficiency
      change_percentage_per_commit := change_percentage_per_commit
      developer_productivity_score := developer_productivity_score }

/-- CodeMetrics from models.py, without the language map, which no claim
touches. -/
structure CodeMetrics where
  total_lines : ℤ
  code_lines : ℤ
  comment_lines : ℤ
  blank_lines : ℤ
  files_count : ℤ
deriving DecidableEq

/-- SecurityMetrics from models.py, restricted to the severity counters; the
orchestrator only passes the value through. -/
structure SecurityMetrics where
  total_findings : ℤ
  critical_findings : ℤ
  high_findings : ℤ
  medium_findings : ℤ
  low_findings : ℤ
  info_findings : ℤ
deriving DecidableEq

/-- The result bundle assembled by IntegratedAnalysisService.analyze: the
returned four-tuple, with the three optional components. -/
structure Bundle where
  cocomo : CocomoResults
  git : Option GitMetrics
  integrated : Option IntegratedMetrics
  security : Option SecurityMetrics

/-- CodeAnalysisService.analyze: raises ValueError when no source file was
found, and otherwise forwards the salary argument positionally into the mode
slot of calculate_cocomo2, exactly as the call
calculate_cocomo2(avg_salary_month_brl) in code_analysis_service.py does. -/
def codeAnalysisServiceAnalyze (fpow : ℚ → ℚ → ℚ) (metrics : CodeMetrics)
    (avg_salary_month_brl : ℚ) : Except String (CodeMetrics × CocomoResults) :=
  if metrics.files_count = 0 then .error "Nenhum arquivo de código encontrado"
  else .ok (metrics, calculate_cocomo2 fpow (metrics.code_lines : ℚ) avg_salary_month_brl)

/-- IntegratedAnalysisService.analyze, the orchestrator, with its external
stage outcomes as arguments: the code stage result (a failure there is fatal
and is re-raised wrapped in the orchestrator message), the git stage result (a
GitAnalysisError is caught and the summary becomes absent), whether security
analysis is requested, whether the semgrep tool is available, and the security
stage result (a SecurityAnalysisError is caught and the metrics stay absent).
The integrated stage runs exactly when the git summary is present. -/
def serviceAnalyze
    (codeResult : Except String (CodeMetrics × CocomoResults))
    (gitResult : Except String GitMetrics)
    (runSecurity : Bool) (semgrepAvailable : Bool)
    (securityResult : Except String SecurityMetrics) : Except String Bundle :=
  match codeResult with
  | .error e => .error ("Erro na análise integrada: " ++ e)
  | .ok (cm, cocomo) =>
    let git : Option GitMetrics := match gitResult with
      | .ok g => some g
      | .error _ => none
    let security : Option SecurityMetrics :=
      if runSecurity then
        if semgrepAvailable then
          match securityResult with
          | .ok s => some s
          | .error _ => none
        else none
      else none
    let integrated : Option IntegratedMetrics := match git with
      | some g => some (calculate_integrated_metrics cocomo g cm.code_lines)
      | none => none
    .ok { cocomo := cocomo, git := git, integrated := integrated, security := security }

example : splitOnPred (fun c => c == '|') "a|b|".toList = ["a".toList, "b".toList, []] := by decide

example : pyInt " 20 ".toList = some 20 := by decide

example : String.mk (preprocessDate "2024-01-01 10:00:00 -0300".toList) = "2024-01-01T10:00:00" := by decide

example : parseStats "3 files changed, 20 insertions(+), 5 deletions(-)".toList = some (3, 20, 5) := by decide

example : parseStats "3 files changed, 5 deletions(-)".toList = some (3, 0, 5) := by decide

lemma cocomoCoef_pos (kloc : ℚ) :
    0 < (cocomoModeSelect kloc).1.a ∧ 0 < (cocomoModeSelect kloc).1.c := by
  unfold cocomoModeSelect
  split_ifs <;> norm_num [organicCoef, semiDetachedCoef, embeddedCoef]

/-- C5: for every nonnegative code-line count the cost estimator is total and
deterministic (it is a function into CocomoResults, with no failure case) and
its fields satisfy the spec formulas: effort is a times KLOC to the b,
duration is c times effort to the d, headcount is effort over duration with a
zero guard, maintenance is 0.18 of headcount, expansion is 0.30 of headcount,
productivity is code lines over effort with a zero guard, and cost is effort
times the monthly-salary constant 15000, where a, b, c, d come from the
selected tier. The power function is abstract but assumed to preserve
nonnegativity of the base, as the Python float power does. -/
theorem cocomo_formulas {α : Type} (fpow : ℚ → ℚ → ℚ) (code_lines : ℚ) (modeArg : α)
    (hnn : 0 ≤ code_lines) (hfp : ∀ x y, 0 ≤ x → 0 ≤ fpow x y)
    (r : CocomoResults) (hr : r = calculate_cocomo2 fpow code_lines modeArg)
    (coef : CocomoCoef) (hc : coef = (cocomoModeSelect (code_lines / 1000)).1) :
    r.kloc = code_lines / 1000 ∧
    r.effort_person_months = coef.a * fpow (code_lines / 1000) coef.b ∧
    r.time_months = coef.c * fpow r.effort_person_months coef.d ∧
    (r.time_months = 0 → r.people_required = 0) ∧
    (r.time_months ≠ 0 → r.people_required = r.effort_person_months / r.time_months) ∧
    r.maintenance_people = r.people_required * (18/100) ∧
    r.expansion_people = r.people_required * (30/100) ∧
    (r.effort_person_months = 0 → r.productivity = 0) ∧
    (r.effort_person_months ≠ 0 → r.productivity = code_lines / r.effort_person_months) ∧
    r.cost_estimate_brl = r.effort_person_months * 15000 := by
  subst hr hc
  have hkloc : (0:ℚ) ≤ code_lines / 1000 := by positivity
  have ha := (cocomoCoef_pos (code_lines / 1000)).1
  have hcc := (cocomoCoef_pos (code_lines / 1000)).2
  have heff : 0 ≤ (cocomoModeSelect (code_lines / 1000)).1.a *
      fpow (code_lines / 1000) (cocomoModeSelect (code_lines / 1000)).1.b :=
    mul_nonneg ha.le (hfp _ _ hkloc)
  have htime : 0 ≤ (cocomoModeSelect (code_lines / 1000)).1.c *
      fpow ((cocomoModeSelect (code_lines / 1000)).1.a *
        fpow (code_lines / 1000) (cocomoModeSelect (code_lines / 1000)).1.b)
        (cocomoModeSelect (code_lines / 1000)).1.d :=
    mul_nonneg hcc.le (hfp _ _ heff)
  refine ⟨rfl, rfl, rfl, ?_, ?_, rfl, rfl, ?_, ?_, rfl⟩
  · intro h
    simp only [calculate_cocomo2] at h ⊢
    rw [h]
    simp
  · intro h
    simp only [calculate_cocomo2] at h ⊢
    rw [if_pos (lt_of_le_of_ne htime (Ne.symm h))]
  · intro h
    simp only [calculate_cocomo2] at h ⊢
    rw [h]
    simp
  · intro h
    simp only [calculate_cocomo2] at h ⊢
    rw [if_pos (lt_of_le_of_ne heff (Ne.symm h))]

/-- C5 witness: the estimator formulas evaluated at one thousand code lines
with the identity-in-the-base power function. -/
theorem cocomo_formulas_witness :
    (calculate_cocomo2 (fun x _ => x) 1000 (0:ℚ)).kloc = 1000 / 1000 ∧
    (calculate_cocomo2 (fun x _ => x) 1000 (0:ℚ)).effort_person_months =
      organicCoef.a * (fun (x : ℚ) (_ : ℚ) => x) (1000 / 1000) organicCoef.b ∧
    (calculate_cocomo2 (fun x _ => x) 1000 (0:ℚ)).time_months =
      organicCoef.c * (fun (x : ℚ) (_ : ℚ) => x)
        ((calculate_cocomo2 (fun x _ => x) 1000 (0:ℚ)).effort_person_months) organicCoef.d ∧
    ((calculate_cocomo2 (fun x _ => x) 1000 (0:ℚ)).time_months = 0 →
      (calculate_cocomo2 (fun x _ => x) 1000 (0:ℚ)).people_required = 0) ∧
    ((calculate_cocomo2 (fun x _ => x) 1000 (0:ℚ)).time_months ≠ 0 →
      (calculate_cocomo2 (fun x _ => x) 1000 (0:ℚ)).people_required =
        (calculate_cocomo2 (fun x _ => x) 1000 (0:ℚ)).effort_person_months /
          (calculate_cocomo2 (fun x _ => x) 1000 (0:ℚ)).time_months) ∧
    (calculate_cocomo2 (fun x _ => x) 1000 (0:ℚ)).maintenance_people =
      (calculate_cocomo2 (fun x _ => x) 1000 (0:ℚ)).people_required * (18/100) ∧
    (calculate_cocomo2 (fun x _ => x) 1000 (0:ℚ)).expansion_people =
      (calculate_cocomo2 (fun x _ => x) 1000 (0:ℚ)).people_required * (30/100) ∧
    ((calculate_cocomo2 (fun x _ => x) 1000 (0:ℚ)).effort_person_months = 0 →
      (calculate_cocomo2 (fun x _ => x) 1000 (0:ℚ)).productivity = 0) ∧
    ((calculate_cocomo2 (fun x _ => x) 1000 (0:ℚ)).effort_person_months ≠ 0 →
      (calculate_cocomo2 (fun x _ => x) 1000 (0:ℚ)).productivity =
        1000 / (calculate_cocomo2 (fun x _ => x) 1000 (0:ℚ)).effort_person_months) ∧
    (calculate_cocomo2 (fun x _ => x) 1000 (0:ℚ)).cost_estimate_brl =
      (calculate_cocomo2 (fun x _ => x) 1000 (0:ℚ)).effort_person_months * 15000 :=
  cocomo_formulas (fun x _ => x) 1000 (0:ℚ) (by norm_num) (fun x y h => h)
    _ rfl organicCoef (by norm_num [cocomoModeSelect])

/-- C6: the tier selection is by fixed KLOC thresholds, at most 50 organic
with the low complexity label, at most 300 semi-detached with the medium
label, above that embedded with the high label; in particular KLOC 50 selects
the low tier and KLOC 50.0001 the mid tier, and the estimator carries the
matching complexity label. -/
theorem cocomo_tier_thresholds :
    (∀ kloc : ℚ, kloc ≤ 50 → cocomoModeSelect kloc = (organicCoef, "Baixa")) ∧
    (∀ kloc : ℚ, 50 < kloc → kloc ≤ 300 → cocomoModeSelect kloc = (semiDetachedCoef, "Média")) ∧
    (∀ kloc : ℚ, 300 < kloc → cocomoModeSelect kloc = (embeddedCoef, "Alta")) ∧
    cocomoModeSelect 50 = (organicCoef, "Baixa") ∧
    cocomoModeSelect (500001/10000) = (semiDetachedCoef, "Média") ∧
    (∀ (fpow : ℚ → ℚ → ℚ) (m : ℚ),
      (calculate_cocomo2 fpow 50000 m).complexity_level = "Baixa" ∧
      (calculate_cocomo2 fpow (500001/10) m).complexity_level = "Média") := by
  refine ⟨?_, ?_, ?_, ?_, ?_, ?_⟩
  · intro kloc h
    rw [cocomoModeSelect, if_pos h]
  · intro kloc h1 h2
    rw [cocomoModeSelect, if_neg (not_le.mpr h1), if_pos h2]
  · intro kloc h
    rw [cocomoModeSelect, if_neg (by linarith), if_neg (not_le.mpr h)]
  · norm_num [cocomoModeSelect]
  · norm_num [cocomoModeSelect]
  · intro fpow m
    constructor
    · show (cocomoModeSelect (50000 / 1000)).2 = "Baixa"
      norm_num [cocomoModeSelect]
    · show (cocomoModeSelect (500001 / 10 / 1000)).2 = "Média"
      norm_num [cocomoModeSelect]

/-- C6 witness: the three threshold branches applied at sample KLOC values. -/
theorem cocomo_tier_thresholds_witness :
    cocomoModeSelect 40 = (organicCoef, "Baixa") ∧
    cocomoModeSelect 100 = (semiDetachedCoef, "Média") ∧
    cocomoModeSelect 400 = (embeddedCoef, "Alta") :=
  ⟨cocomo_tier_thresholds.1 40 (by norm_num),
   cocomo_tier_thresholds.2.1 100 (by norm_num) (by norm_num),
   cocomo_tier_thresholds.2.2.1 400 (by norm_num)⟩

/-- C10: the salary argument of CodeAnalysisService.analyze is forwarded
positionally into the dead mode slot of calculate_cocomo2, which the KLOC tier
selection overwrites before its only read, and the cost field uses the
hard-coded monthly salary 15000; hence two runs differing only in the salary
argument produce identical results, and the cost always equals effort times
15000. -/
theorem salary_noninterference :
    (∀ (fpow : ℚ → ℚ → ℚ) (metrics : CodeMetrics) (s₁ s₂ : ℚ),
      codeAnalysisServiceAnalyze fpow metrics s₁ = codeAnalysisServiceAnalyze fpow metrics s₂) ∧
    (∀ {α : Type} (fpow : ℚ → ℚ → ℚ) (cl : ℚ) (s₁ s₂ : α),
      calculate_cocomo2 fpow cl s₁ = calculate_cocomo2 fpow cl s₂) ∧
    (∀ (fpow : ℚ → ℚ → ℚ) (cl : ℚ) (s : ℚ),
      (calculate_cocomo2 fpow cl s).cost_estimate_brl =
        (calculate_cocomo2 fpow cl s).effort_person_months * 15000) :=
  ⟨fun _ _ _ _ => rfl, fun _ _ _ _ => rfl, fun _ _ _ => rfl⟩

lemma integrated_score_le_100 (cocomo : CocomoResults) (git : GitMetrics) (tl : ℤ) :
    (calculate_integrated_metrics cocomo git tl).developer_productivity_score ≤ 100 := by
  unfold calculate_integrated_metrics
  simp only
  have hb : (if cocomo.complexity_level = "Alta" then (10:ℚ)
      else if cocomo.complexity_level = "Média" then 5 else 0) ≤ 10 := by
    split_ifs <;> norm_num
  have h1 := min_le_right
    ((if 0 < (if 0 < cocomo.productivity then cocomo.productivity / WORKING_DAYS_PER_MONTH else 0)
        then (if 0 < git.repository_age_days then (tl : ℚ) / (git.repository_age_days : ℚ) else 0) /
          (if 0 < cocomo.productivity then cocomo.productivity / WORKING_DAYS_PER_MONTH else 0)
        else 0) * 25) (25:ℚ)
  have h2 := min_le_right
    ((if 0 < git.total_insertions + git.total_deletions
        then (tl : ℚ) / ((git.total_insertions + git.total_deletions : ℤ) : ℚ) * 100
        else 0) / 100 * 15) (15:ℚ)
  linarith

/-- C4 counterexample: the composite productivity score never exceeds 100,
because its three variable terms are capped at 25, 15 and 10 and the base is
50; the claim that some input drives the score above 100 is therefore false. -/
theorem productivity_score_not_above_100 :
    ¬ ∃ (cocomo : CocomoResults) (git : GitMetrics) (total_lines : ℤ),
        100 < (calculate_integrated_metrics cocomo git total_lines).developer_productivity_score :=
  fun ⟨cocomo, git, tl, h⟩ => absurd h (not_lt.mpr (integrated_score_le_100 cocomo git tl))

/-- C4 as amended: the composite score equals 50 plus the velocity term capped
at 25, plus the efficiency term capped at 15, plus the complexity bonus of 10
for the high label, 5 for the medium label and 0 otherwise; the individual
terms are clamped before summing and no clamp is applied to the total, yet the
caps make the total at most 100 by construction. -/
theorem productivity_score_formula (cocomo : CocomoResults) (git : GitMetrics) (total_lines : ℤ) :
    (calculate_integrated_metrics cocomo git total_lines).developer_productivity_score =
      50 + min ((calculate_integrated_metrics cocomo git total_lines).velocity_ratio * 25) 25
        + min ((calculate_integrated_metrics cocomo git total_lines).commit_efficiency / 100 * 15) 15
        + (if cocomo.complexity_level = "Alta" then 10
           else if cocomo.complexity_level = "Média" then 5 else 0) ∧
    (calculate_integrated_metrics cocomo git total_lines).developer_productivity_score ≤ 100 :=
  ⟨rfl, integrated_score_le_100 cocomo git total_lines⟩

lemma bind_some_step {α β : Type} (v : α) (f : α → Option β) : (some v).bind f = f v := rfl

lemma guarded_divOpt_int {n : ℤ} (a : ℚ) :
    (if 0 < n then divOpt a (n : ℚ) else pure 0) = some (if 0 < n then a / (n : ℚ) else 0) := by
  split_ifs with hp
  · rw [divOpt, if_neg (by exact_mod_cast hp.ne')]
  · rfl

lemma guarded_divOpt_self {b : ℚ} (a : ℚ) :
    (if 0 < b then divOpt a b else pure 0) = some (if 0 < b then a / b else 0) := by
  split_ifs with hp
  · rw [divOpt, if_neg hp.ne']
  · rfl

lemma guarded_divOpt_wdpm (a : ℚ) :
    (if 0 < a then divOpt a WORKING_DAYS_PER_MONTH else pure 0) =
      some (if 0 < a then a / WORKING_DAYS_PER_MONTH else 0) := by
  split_ifs with hp
  · rw [divOpt, if_neg (by norm_num [WORKING_DAYS_PER_MONTH])]
  · rfl

lemma guarded_divOpt_int_map {n : ℤ} (a k : ℚ) :
    (if 0 < n then (divOpt a (n : ℚ)).map (fun q => q * k) else pure 0) =
      some (if 0 < n then a / (n : ℚ) * k else 0) := by
  split_ifs with hp
  · rw [divOpt, if_neg (by exact_mod_cast hp.ne')]
    rfl
  · rfl

lemma guarded_divOpt_int_div30 {n : ℤ} (a : ℚ) :
    (if 0 < n then divOpt a ((n : ℚ) / 30) else pure 0) =
      some (if 0 < n then a / ((n : ℚ) / 30) else 0) := by
  split_ifs with hp
  · rw [divOpt, if_neg (by positivity)]
  · rfl

lemma divOpt_hundred (a : ℚ) : divOpt a 100 = some (a / 100) := by
  rw [divOpt, if_neg (by norm_num)]

/-- C7: the checked calculator, in which every division faults on a zero
denominator, always succeeds and agrees with the calculator, so no division by
zero is ever reached; and with zero total lines both lines-per-commit and
commits-needed-to-rebuild are zero for any git summary. -/
theorem integrated_no_div_by_zero :
    (∀ (cocomo : CocomoResults) (git : GitMetrics) (total_lines : ℤ),
      calculate_integrated_metrics_checked cocomo git total_lines =
        some (calculate_integrated_metrics cocomo git total_lines)) ∧
    (∀ (cocomo : CocomoResults) (git : GitMetrics),
      (calculate_integrated_metrics cocomo git 0).lines_per_commit = 0 ∧
      (calculate_integrated_metrics cocomo git 0).commits_needed_to_rebuild = 0) := by
  constructor
  · intro cocomo git tl
    rw [calculate_integrated_metrics_checked, calculate_integrated_metrics]
    simp only [guarded_divOpt_int, guarded_divOpt_self, guarded_divOpt_wdpm,
      guarded_divOpt_int_map, guarded_divOpt_int_div30, divOpt_hundred, bind_some_step]
    rfl
  · intro cocomo git
    constructor
    · show (if 0 < git.total_commits then ((0:ℤ) : ℚ) / (git.total_commits : ℚ) else 0) = 0
      split_ifs <;> simp
    · show (if 0 < (if 0 < git.total_commits then ((0:ℤ) : ℚ) / (git.total_commits : ℚ) else 0)
          then cocomo.kloc * 1000 /
            (if 0 < git.total_commits then ((0:ℤ) : ℚ) / (git.total_commits : ℚ) else 0)
          else 0) = 0
      split_ifs <;> simp_all

lemma getCommitsLines_pair (fromiso : String → Option ℤ) (l1 l2 : List Char)
    (rest : List (List Char)) (p0 p1 p2 p3 : List Char) (ps : List (List Char))
    (hsplit : splitOnPred (fun c => c == '|') l1 = p0 :: p1 :: p2 :: p3 :: ps)
    (hpipe : '|' ∈ l1)
    (d : ℤ) (hdate : fromiso (String.mk (preprocessDate p2)) = some d)
    (hch : containsSeq "changed".toList l2 = true)
    (f ins del : ℤ) (hstats : parseStats l2 = some (f, ins, del)) :
    getCommitsLines fromiso (l1 :: l2 :: rest) =
      (getCommitsLines fromiso rest).map
        (fun cs =>
          { hash := String.mk p0, author := String.mk p1, date := d,
            message := String.mk p3, files_changed := f, insertions := ins,
            deletions := del, total_changes := ins + del } :: cs) := by
  rw [getCommitsLines.eq_def]
  simp only []
  rw [if_pos hpipe, hsplit]
  rw [if_pos (show 4 ≤ (p0 :: p1 :: p2 :: p3 :: ps).length by simp [List.length_cons])]
  simp only [List.getD_cons_zero, List.getD_cons_succ]
  rw [hdate]
  simp only []
  rw [if_pos hch, hstats]

/-- C2: the spec example parses to exactly one record with the given hash,
author, files, insertions and deletions; and for any stats line whose
insertions or deletions clause is absent the corresponding field of the
produced record is zero. The external date parser is abstract; the hypothesis
pins its value on the preprocessed date field of the example. -/
theorem scanner_example_and_defaults (fromiso : String → Option ℤ) (d : ℤ)
    (hd : fromiso "2024-01-01T10:00:00" = some d) :
    getCommitsText fromiso
      "abc123|Jane|2024-01-01 10:00:00 -0300|init\n3 files changed, 20 insertions(+), 5 deletions(-)" =
      some [{ hash := "abc123", author := "Jane", date := d, message := "init",
              files_changed := 3, insertions := 20, deletions := 5, total_changes := 25 }] ∧
    (∀ (stats : List Char) (f ins del : ℤ), containsSeq "insertion".toList stats = false →
      parseStats stats = some (f, ins, del) → ins = 0) ∧
    (∀ (stats : List Char) (f ins del : ℤ), containsSeq "deletion".toList stats = false →
      parseStats stats = some (f, ins, del) → del = 0) := by
  refine ⟨?_, ?_, ?_⟩
  · rw [getCommitsText]
    rw [show splitOnPred (fun c => c == '\n')
        ("abc123|Jane|2024-01-01 10:00:00 -0300|init\n3 files changed, 20 insertions(+), 5 deletions(-)").toList =
        ["abc123|Jane|2024-01-01 10:00:00 -0300|init".toList,
         "3 files changed, 20 insertions(+), 5 deletions(-)".toList] from by decide]
    rw [getCommitsLines_pair fromiso _ _ _ "abc123".toList "Jane".toList
        "2024-01-01 10:00:00 -0300".toList "init".toList [] (by decide) (by decide) d
        (by rw [show String.mk (preprocessDate "2024-01-01 10:00:00 -0300".toList) =
              "2024-01-01T10:00:00" from by decide]; exact hd)
        (by decide) 3 20 5 (by decide)]
    rfl
  · intro stats f ins del hnc hp
    rw [parseStats] at hp
    simp only [hnc, Bool.false_eq_true, if_false] at hp
    rcases Option.bind_eq_some.mp hp with ⟨files, hA, hp2⟩
    rcases Option.bind_eq_some.mp hp2 with ⟨ins0, hB, hp3⟩
    rcases Option.bind_eq_some.mp hp3 with ⟨del0, hC, hp4⟩
    injection hB with hB0
    injection hp4 with hp5
    rw [Prod.mk.injEq, Prod.mk.injEq] at hp5
    rw [← hp5.2.1, ← hB0]
  · intro stats f ins del hnc hp
    rw [parseStats] at hp
    simp only [hnc, Bool.false_eq_true, if_false] at hp
    rcases Option.bind_eq_some.mp hp with ⟨files, hA, hp2⟩
    rcases Option.bind_eq_some.mp hp2 with ⟨ins0, hB, hp3⟩
    rcases Option.bind_eq_some.mp hp3 with ⟨del0, hC, hp4⟩
    injection hC with hC0
    injection hp4 with hp5
    rw [Prod.mk.injEq, Prod.mk.injEq] at hp5
    rw [← hp5.2.2, ← hC0]

/-- C2 witness: the example theorem applied to a concrete date parser. -/
theorem scanner_example_and_defaults_witness :
    getCommitsText (fun s => if s = "2024-01-01T10:00:00" then some 1704103200 else none)
      "abc123|Jane|2024-01-01 10:00:00 -0300|init\n3 files changed, 20 insertions(+), 5 deletions(-)" =
      some [{ hash := "abc123", author := "Jane", date := 1704103200, message := "init",
              files_changed := 3, insertions := 20, deletions := 5, total_changes := 25 }] :=
  (scanner_example_and_defaults
    (fun s => if s = "2024-01-01T10:00:00" then some 1704103200 else none)
    1704103200 (by decide)).1

/-- C3 counterexample: a log text with no malformed header and one well-formed
entry on which the scan nevertheless aborts: the stats line carries a
non-numeric files count, the int conversion raises, and no record at all is
returned, refuting the claim that the scan never aborts and still yields the
records of all well-formed entries; the second conjunct shows the same header
alone does parse. -/
theorem scanner_abort_counterexample :
    getCommitsText (fun s => if s = "2024-01-01T10:00:00" then some 1704103200 else none)
      "a|b|2024-01-01 10:00:00 -0300|s\nxx file changed" = none ∧
    getCommitsText (fun s => if s = "2024-01-01T10:00:00" then some 1704103200 else none)
      "a|b|2024-01-01 10:00:00 -0300|s" =
      some [{ hash := "a", author := "b", date := 1704103200, message := "s",
              files_changed := 0, insertions := 0, deletions := 0, total_changes := 0 }] :=
  ⟨by decide, by decide⟩

/-- C3 as amended: a header line containing the separator but with fewer than
four separator-delimited fields is skipped: it produces no record and scanning
continues with the remaining lines unchanged. The source keeps no
parse-warning count, and a later well-formed entry can still abort the whole
scan on a malformed stats number or date, per the counterexample. -/
theorem malformed_header_skipped (fromiso : String → Option ℤ) (line : List Char)
    (rest : List (List Char))
    (h : (splitOnPred (fun c => c == '|') line).length < 4) :
    getCommitsLines fromiso (line :: rest) = getCommitsLines fromiso rest := by
  have h4 : ¬ 4 ≤ (splitOnPred (fun c => c == '|') line).length := by omega
  rw [getCommitsLines.eq_def]
  simp only []
  by_cases hp : '|' ∈ line
  · rw [if_pos hp, if_neg h4]
  · rw [if_neg hp]

/-- C3 witness: the skip rule applied to a concrete two-field header line. -/
theorem malformed_header_skipped_witness :
    (splitOnPred (fun c => c == '|') "x|y".toList).length < 4 ∧
    getCommitsLines (fun _ => none) ["x|y".toList, "a".toList] =
      getCommitsLines (fun _ => none) ["a".toList] :=
  ⟨by decide, malformed_header_skipped (fun _ => none) "x|y".toList ["a".toList] (by decide)⟩

lemma minByDate_cons (c x : CommitInfo) (xs : List CommitInfo) :
    minByDate c (x :: xs) = minByDate (if x.date < c.date then x else c) xs := rfl

lemma maxByDate_cons (c x : CommitInfo) (xs : List CommitInfo) :
    maxByDate c (x :: xs) = maxByDate (if c.date < x.date then x else c) xs := rfl

lemma minByDate_mem (c : CommitInfo) (cs : List CommitInfo) : minByDate c cs ∈ c :: cs := by
  induction cs generalizing c with
  | nil => simp [minByDate]
  | cons x xs ih =>
    rw [minByDate_cons]
    rcases List.mem_cons.mp (ih (if x.date < c.date then x else c)) with h1 | h1
    · rw [h1]
      split
      · exact List.mem_cons_of_mem _ (List.mem_cons_self _ _)
      · exact List.mem_cons_self _ _
    · exact List.mem_cons_of_mem _ (List.mem_cons_of_mem _ h1)

lemma maxByDate_mem (c : CommitInfo) (cs : List CommitInfo) : maxByDate c cs ∈ c :: cs := by
  induction cs generalizing c with
  | nil => simp [maxByDate]
  | cons x xs ih =>
    rw [maxByDate_cons]
    rcases List.mem_cons.mp (ih (if c.date < x.date then x else c)) with h1 | h1
    · rw [h1]
      split
      · exact List.mem_cons_of_mem _ (List.mem_cons_self _ _)
      · exact List.mem_cons_self _ _
    · exact List.mem_cons_of_mem _ (List.mem_cons_of_mem _ h1)

lemma minByDate_le (c : CommitInfo) (cs : List CommitInfo) :
    ∀ x ∈ c :: cs, (minByDate c cs).date ≤ x.date := by
  induction cs generalizing c with
  | nil =>
    intro x hx
    rw [List.mem_singleton] at hx
    rw [hx]
    exact le_rfl
  | cons y ys ih =>
    intro x hx
    rw [minByDate_cons]
    have hbase : (minByDate (if y.date < c.date then y else c) ys).date ≤
        (if y.date < c.date then y else c).date :=
      ih _ _ (List.mem_cons_self _ _)
    rcases List.mem_cons.mp hx with rfl | hx1
    · refine le_trans hbase ?_
      split
      · next hlt => exact le_of_lt hlt
      · exact le_rfl
    · rcases List.mem_cons.mp hx1 with rfl | hx2
      · refine le_trans hbase ?_
        split
        · exact le_rfl
        · next hlt => exact le_of_not_lt hlt
      · exact ih _ x (List.mem_cons_of_mem _ hx2)

lemma maxByDate_ge (c : CommitInfo) (cs : List CommitInfo) :
    ∀ x ∈ c :: cs, x.date ≤ (maxByDate c cs).date := by
  induction cs generalizing c with
  | nil =>
    intro x hx
    rw [List.mem_singleton] at hx
    rw [hx]
    exact le_rfl
  | cons y ys ih =>
    intro x hx
    rw [maxByDate_cons]
    have hbase : (if c.date < y.date then y else c).date ≤
        (maxByDate (if c.date < y.date then y else c) ys).date :=
      ih _ _ (List.mem_cons_self _ _)
    rcases List.mem_cons.mp hx with rfl | hx1
    · refine le_trans ?_ hbase
      split
      · next hlt => exact le_of_lt hlt
      · exact le_rfl
    · rcases List.mem_cons.mp hx1 with rfl | hx2
      · refine le_trans ?_ hbase
        split
        · exact le_rfl
        · next hlt => exact le_of_not_lt hlt
      · exact ih _ x (List.mem_cons_of_mem _ hx2)

/-- C8: on every nonempty commit list the aggregator sets the first commit
date to the minimum timestamp (a timestamp of the list that bounds all others
from below) and the last commit date to the maximum, both therefore invariant
under permutation of the input; and the repository age in days is the
floored whole-day span between them, raised to a minimum of one. -/
theorem aggregator_minmax (c : CommitInfo) (cs : List CommitInfo) :
    ∃ m : GitMetrics, calculate_metrics (c :: cs) = .ok m ∧
      m.first_commit_date ∈ (c :: cs).map CommitInfo.date ∧
      (∀ x ∈ c :: cs, m.first_commit_date ≤ x.date) ∧
      m.last_commit_date ∈ (c :: cs).map CommitInfo.date ∧
      (∀ x ∈ c :: cs, x.date ≤ m.last_commit_date) ∧
      m.repository_age_days =
        max 1 (Int.fdiv (m.last_commit_date - m.first_commit_date) 86400) ∧
      (∀ (c₂ : CommitInfo) (cs₂ : List CommitInfo) (m₂ : GitMetrics),
        (c :: cs).Perm (c₂ :: cs₂) → calculate_metrics (c₂ :: cs₂) = .ok m₂ →
        m.first_commit_date = m₂.first_commit_date ∧
        m.last_commit_date = m₂.last_commit_date) := by
  refine ⟨_, rfl, ?_, ?_, ?_, ?_, ?_, ?_⟩
  · exact List.mem_map_of_mem CommitInfo.date (minByDate_mem c cs)
  · exact minByDate_le c cs
  · exact List.mem_map_of_mem CommitInfo.date (maxByDate_mem c cs)
  · exact maxByDate_ge c cs
  · have hle : (minByDate c cs).date ≤ (maxByDate c cs).date :=
      minByDate_le c cs _ (maxByDate_mem c cs)
    have hspan : 0 ≤ Int.fdiv ((maxByDate c cs).date - (minByDate c cs).date) 86400 :=
      Int.fdiv_nonneg (by omega) (by norm_num)
    show (if Int.fdiv ((maxByDate c cs).date - (minByDate c cs).date) 86400 = 0 then 1
        else Int.fdiv ((maxByDate c cs).date - (minByDate c cs).date) 86400) =
      max 1 (Int.fdiv ((maxByDate c cs).date - (minByDate c cs).date) 86400)
    split_ifs with h0
    · rw [h0]
      rfl
    · exact (max_eq_right (by omega)).symm
  · intro c₂ cs₂ m₂ hperm hm₂
    simp only [calculate_metrics] at hm₂
    injection hm₂ with hm₂
    rw [← hm₂]
    constructor
    · show (minByDate c cs).date = (minByDate c₂ cs₂).date
      have h1 : (minByDate c cs).date ≤ (minByDate c₂ cs₂).date :=
        minByDate_le c cs _ (hperm.mem_iff.mpr (minByDate_mem c₂ cs₂))
      have h2 : (minByDate c₂ cs₂).date ≤ (minByDate c cs).date :=
        minByDate_le c₂ cs₂ _ (hperm.mem_iff.mp (minByDate_mem c cs))
      omega
    · show (maxByDate c cs).date = (maxByDate c₂ cs₂).date
      have h1 : (maxByDate c₂ cs₂).date ≤ (maxByDate c cs).date :=
        maxByDate_ge c cs _ (hperm.mem_iff.mpr (maxByDate_mem c₂ cs₂))
      have h2 : (maxByDate c cs).date ≤ (maxByDate c₂ cs₂).date :=
        maxByDate_ge c₂ cs₂ _ (hperm.mem_iff.mp (maxByDate_mem c cs))
      omega

/-- A sample commit used by concrete witnesses. -/
def sampleCommitA : CommitInfo :=
  { hash := "h1", author := "A", date := 100000, message := "m1",
    files_changed := 2, insertions := 10, deletions := 5, total_changes := 15 }

/-- A second sample commit used by concrete witnesses. -/
def sampleCommitB : CommitInfo :=
  { hash := "h2", author := "B", date := 86400000, message := "m2",
    files_changed := 1, insertions := 3, deletions := 1, total_changes := 4 }

/-- C8 witness: the aggregator min-max facts at a concrete two-commit list. -/
theorem aggregator_minmax_witness :
    ∃ m : GitMetrics, calculate_metrics (sampleCommitA :: [sampleCommitB]) = .ok m ∧
      m.first_commit_date ∈ (sampleCommitA :: [sampleCommitB]).map CommitInfo.date ∧
      (∀ x ∈ sampleCommitA :: [sampleCommitB], m.first_commit_date ≤ x.date) ∧
      m.last_commit_date ∈ (sampleCommitA :: [sampleCommitB]).map CommitInfo.date ∧
      (∀ x ∈ sampleCommitA :: [sampleCommitB], x.date ≤ m.last_commit_date) ∧
      m.repository_age_days =
        max 1 (Int.fdiv (m.last_commit_date - m.first_commit_date) 86400) ∧
      (∀ (c₂ : CommitInfo) (cs₂ : List CommitInfo) (m₂ : GitMetrics),
        (sampleCommitA :: [sampleCommitB]).Perm (c₂ :: cs₂) →
        calculate_metrics (c₂ :: cs₂) = .ok m₂ →
        m.first_commit_date = m₂.first_commit_date ∧
        m.last_commit_date = m₂.last_commit_date) :=
  aggregator_minmax sampleCommitA [sampleCommitB]

/-- C9: the aggregator fails with the empty-history error message on an empty
commit sequence, so no summary is ever built from one, and on every nonempty
sequence it succeeds without raising. -/
theorem aggregator_empty_fails_nonempty_succeeds :
    calculate_metrics [] = .error "Nenhum commit encontrado" ∧
    ∀ (c : CommitInfo) (cs : List CommitInfo), ∃ m, calculate_metrics (c :: cs) = .ok m :=
  ⟨rfl, fun _ _ => ⟨_, rfl⟩⟩

/-- C1 as amended: when the code stage succeeds and the git stage fails, the
orchestrator does not raise: it returns a bundle whose cost estimate is set
while the git summary and the integrated indicators are both absent; across
all runs the integrated stage runs exactly when the git stage succeeded; and
the security component is independent of the git outcome, set only by the
security switches and the security stage result. -/
theorem orchestrator_git_failure_degrades
    (cm : CodeMetrics) (cocomo : CocomoResults) (e : String)
    (runSecurity semgrepAvailable : Bool)
    (securityResult : Except String SecurityMetrics) :
    (∃ b : Bundle,
      serviceAnalyze (.ok (cm, cocomo)) (.error e) runSecurity semgrepAvailable
        securityResult = .ok b ∧
      b.cocomo = cocomo ∧ b.git = none ∧ b.integrated = none) ∧
    (∀ (gitResult : Except String GitMetrics) (b : Bundle),
      serviceAnalyze (.ok (cm, cocomo)) gitResult runSecurity semgrepAvailable
        securityResult = .ok b →
      (b.integrated.isSome ↔ ∃ g, gitResult = .ok g)) ∧
    (∀ (g₁ g₂ : Except String GitMetrics) (b₁ b₂ : Bundle),
      serviceAnalyze (.ok (cm, cocomo)) g₁ runSecurity semgrepAvailable
        securityResult = .ok b₁ →
      serviceAnalyze (.ok (cm, cocomo)) g₂ runSecurity semgrepAvailable
        securityResult = .ok b₂ →
      b₁.security = b₂.security) := by
  refine ⟨⟨_, rfl, rfl, rfl, rfl⟩, ?_, ?_⟩
  · intro gitResult b hb
    cases gitResult with
    | ok g =>
      simp only [serviceAnalyze] at hb
      injection hb with hb
      rw [← hb]
      simp
    | error e₂ =>
      simp only [serviceAnalyze] at hb
      injection hb with hb
      rw [← hb]
      simp
  · intro g₁ g₂ b₁ b₂ h₁ h₂
    cases g₁ <;> cases g₂ <;>
      · simp only [serviceAnalyze] at h₁ h₂
        injection h₁ with h₁
        injection h₂ with h₂
        rw [← h₁, ← h₂]

/-- C1 witness: the degraded run evaluated at concrete inputs. -/
theorem orchestrator_git_failure_degrades_witness :
    ∃ b : Bundle,
      serviceAnalyze
        (.ok ({ total_lines := 10, code_lines := 8, comment_lines := 1,
                blank_lines := 1, files_count := 1 },
              calculate_cocomo2 (fun x _ => x) 8 (0:ℚ)))
        (.error "nenhum repositório") false false (.error "sem semgrep") = .ok b ∧
      b.cocomo = calculate_cocomo2 (fun x _ => x) 8 (0:ℚ) ∧
      b.git = none ∧ b.integrated = none :=
  (orchestrator_git_failure_degrades
    { total_lines := 10, code_lines := 8, comment_lines := 1,
      blank_lines := 1, files_count := 1 }
    (calculate_cocomo2 (fun x _ => x) 8 (0:ℚ)) "nenhum repositório"
    false false (.error "sem semgrep")).1

/-- A sample cost estimate used by the orchestrator counterexample. -/
def sampleCocomo : CocomoResults :=
  { kloc := 1, effort_person_months := 2, time_months := 3, people_required := 1,
    maintenance_people := 1, expansion_people := 1, productivity := 500,
    cost_estimate_brl := 30000, complexity_level := "Baixa" }

/-- A sample security result used by the orchestrator counterexample. -/
def sampleSecurity : SecurityMetrics :=
  { total_findings := 4, critical_findings := 0, high_findings := 1,
    medium_findings := 2, low_findings := 1, info_findings := 0 }

/-- C1 counterexample: with the git stage failing but security analysis
requested, the tool available and the security stage succeeding, the returned
bundle carries the security metrics, so the claim that a git failure leaves
the security component absent is false. -/
theorem orchestrator_security_not_absent_counterexample :
    ∃ b : Bundle,
      serviceAnalyze
        (.ok ({ total_lines := 10, code_lines := 8, comment_lines := 1,
                blank_lines := 1, files_count := 1 }, sampleCocomo))
        (.error "não é um repositório Git") true true (.ok sampleSecurity) = .ok b ∧
      b.git = none ∧ b.integrated = none ∧
      b.security = some sampleSecurity ∧ b.security ≠ none :=
  ⟨_, rfl, rfl, rfl, rfl, Option.some_ne_none sampleSecurity⟩

end CA
